import Mathlib

/-!
Verification development for the `effect-api-client` repository: a declarative
route-description layer over an Effect-based HTTP client.  The data model and
the operations below are shallow embeddings of the TypeScript sources
(`src/url.ts`, the service module, `src/client.ts`, `src/output.ts`,
`src/request.ts`).  The route-assembly pipeline (`make.ts`) and the
headers/input/error maker modules are not present under `src/`; the
definitions that embed them are modelled from the specification and are marked
as such in their doc comments.
-/

namespace EffectApiClient

/-- A JSON value, the payload type carried by request and response bodies. -/
inductive Json where
  | null : Json
  | bool (b : Bool) : Json
  | num (n : Int) : Json
  | str (s : String) : Json
  | arr (items : List Json) : Json
  | obj (fields : List (String × Json)) : Json

/-- HTTP header maps, as association lists of name/value pairs
(Effect's `Headers` is a string-keyed record). -/
abbrev HeaderMap := List (String × String)

/-- Embeds Effect's `Headers.set`: any existing binding of the name is
replaced, so afterwards the name maps to exactly the given value (the order
of unrelated names is preserved). -/
def setHeader (hs : HeaderMap) (k v : String) : HeaderMap :=
  hs.filter (fun kv => kv.1 != k) ++ [(k, v)]

/-- Header lookup by name. -/
def getHeader (hs : HeaderMap) (k : String) : Option String :=
  hs.lookup k

/-- The four HTTP methods exposed by the client (`get`/`post`/`put`/`del`). -/
inductive Method where
  | get
  | post
  | put
  | delete
deriving DecidableEq

/-- A transport-ready request body, one of the representations a custom body
function may produce (JSON, text, form data, or binary). -/
inductive BodyRep where
  | jsonBody (j : Json) : BodyRep
  | text (s : String) : BodyRep
  | formData (fields : List (String × String)) : BodyRep
  | binary (bytes : List Nat) : BodyRep

/-- An outgoing HTTP request, as seen by the layer's request-mapping stages:
method, URL, headers, and optional body. -/
structure HttpRequest where
  method : Method
  url : String
  headers : HeaderMap
  body : Option BodyRep

/-- Embeds `HttpClientRequest.bearerToken`: set the `authorization` header to
`Bearer <token>`. -/
def bearerToken (t : String) (req : HttpRequest) : HttpRequest :=
  { req with headers := setHeader req.headers "authorization" ("Bearer " ++ t) }

/-- Embeds the error type of the access-token effect in the service config
(`{ _tag: string }`). -/
structure AuthError where
  tag : String

/-- Embeds the service module's `Config` service:
`{ url: string; getAccessToken?: Effect<string | undefined, { _tag: string }> }`.
The optional effect is modelled as an optional deterministic outcome:
failure with an `AuthError`, or success with an optional token string. -/
structure ServiceConfig where
  url : String
  getAccessToken : Option (Except AuthError (Option String))

/-- Embeds `client.ts`'s `Config` service:
`{ url: string; accessToken: string | undefined }`. -/
structure ClientConfig where
  url : String
  accessToken : Option String

/-- Embeds JavaScript's `String.prototype.startsWith`: the pattern's
characters are a prefix of the string's characters. -/
def strStartsWith (s p : String) : Bool :=
  p.data.isPrefixOf s.data

/-- Embeds the base-URL stage shared verbatim by both layers
(`client.ts` lines 228-230 and the service module lines 162-164):
`req.url.startsWith("/") ? setUrl(config.url + req.url) : req`. -/
def prependBaseUrl (base : String) (req : HttpRequest) : HttpRequest :=
  if strStartsWith req.url "/" then { req with url := base ++ req.url } else req

/-- Embeds the bearer-token stage of the service module's layer
(lines 166-172): run the optional `getAccessToken` effect; an absent supplier
yields `undefined`; a failure is caught by `Effect.catchAll(() =>
Effect.succeed(req))`, leaving the request untouched; a falsy result
(`undefined` or the empty string, per the JavaScript `!accessToken` test)
leaves the request untouched; otherwise the bearer token is attached. -/
def serviceAuthStage (cfg : ServiceConfig) (req : HttpRequest) : HttpRequest :=
  match cfg.getAccessToken with
  | none => req
  | some (Except.error _) => req
  | some (Except.ok tok) =>
    match tok with
    | none => req
    | some t => if t = "" then req else bearerToken t req

/-- Embeds the bearer-token stage of `client.ts`'s layer (lines 232-234):
`config.accessToken ? req.pipe(bearerToken(config.accessToken)) : req`,
where the JavaScript truthiness test treats the empty string as absent. -/
def clientAuthStage (cfg : ClientConfig) (req : HttpRequest) : HttpRequest :=
  match cfg.accessToken with
  | none => req
  | some t => if t = "" then req else bearerToken t req

/-- The full request transformation installed by the service module's layer:
the base-URL stage and the bearer stage.  The two stages touch disjoint
fields of the request (`url` versus `headers`), so their order of
composition is immaterial; they are applied here in source-reading order. -/
def serviceTransform (cfg : ServiceConfig) (req : HttpRequest) : HttpRequest :=
  serviceAuthStage cfg (prependBaseUrl cfg.url req)

/-- The full request transformation installed by `client.ts`'s layer. -/
def clientTransform (cfg : ClientConfig) (req : HttpRequest) : HttpRequest :=
  clientAuthStage cfg (prependBaseUrl cfg.url req)

theorem serviceAuthStage_url (cfg : ServiceConfig) (req : HttpRequest) :
    (serviceAuthStage cfg req).url = req.url := by
  unfold serviceAuthStage bearerToken
  rcases cfg.getAccessToken with _ | e
  · rfl
  · rcases e with _ | tok
    · rfl
    · rcases tok with _ | t
      · rfl
      · by_cases h : t = "" <;> simp [h]

theorem clientAuthStage_url (cfg : ClientConfig) (req : HttpRequest) :
    (clientAuthStage cfg req).url = req.url := by
  unfold clientAuthStage bearerToken
  rcases cfg.accessToken with _ | t
  · rfl
  · by_cases h : t = "" <;> simp [h]

theorem prependBaseUrl_headers (base : String) (req : HttpRequest) :
    (prependBaseUrl base req).headers = req.headers := by
  unfold prependBaseUrl
  split <;> rfl

theorem lookup_setHeader (hs : HeaderMap) (k v : String) :
    List.lookup k (setHeader hs k v) = some v := by
  unfold setHeader
  induction hs with
  | nil => simp [List.lookup]
  | cons kv t ih =>
    by_cases h : kv.1 = k
    · simp [List.filter, h, ih]
    · simp only [List.filter, List.cons_append, List.lookup]
      have hb : (kv.1 != k) = true := by simp [h]
      rw [hb]
      simp only [List.cons_append, List.lookup]
      have hk : (k == kv.1) = false := by
        simp [BEq.beq]
        exact fun hkk => h hkk.symm
      rw [hk]
      exact ih

/-- Concrete request with a relative URL, used by witnesses. -/
def reqRelative : HttpRequest :=
  { method := Method.get, url := "/todos/1", headers := [], body := none }

/-- Concrete request with an absolute URL, used by witnesses. -/
def reqAbsolute : HttpRequest :=
  { method := Method.get, url := "https://other.example.com/x", headers := [], body := none }

/-- C2: if the configured access-token supplier fails, the layer's request
transformation still yields a request (the supplier's failure is swallowed by
`Effect.catchAll` and never fails the call), that request is exactly the
base-URL-rewritten input with no Authorization header attached; if the
supplier succeeds with a non-empty token, a `Bearer` authorization header
carrying the token is attached. -/
theorem authFailureSilentDegrade (cfg : ServiceConfig) (req : HttpRequest) :
    (∀ e : AuthError, cfg.getAccessToken = some (Except.error e) →
      serviceTransform cfg req = prependBaseUrl cfg.url req ∧
      getHeader (serviceTransform cfg req).headers "authorization" =
        getHeader req.headers "authorization") ∧
    (∀ t : String, cfg.getAccessToken = some (Except.ok (some t)) → t ≠ "" →
      getHeader (serviceTransform cfg req).headers "authorization" =
        some ("Bearer " ++ t)) := by
  constructor
  · intro e he
    have hstage : serviceTransform cfg req = prependBaseUrl cfg.url req := by
      unfold serviceTransform serviceAuthStage
      rw [he]
    refine ⟨hstage, ?_⟩
    rw [hstage, prependBaseUrl_headers]
  · intro t ht hne
    have hstage : serviceTransform cfg req =
        bearerToken t (prependBaseUrl cfg.url req) := by
      unfold serviceTransform serviceAuthStage
      rw [ht]
      simp [hne]
    rw [hstage]
    unfold bearerToken getHeader
    exact lookup_setHeader _ _ _

/-- Concrete service config whose access-token supplier fails. -/
def cfgAuthFail : ServiceConfig :=
  { url := "https://api.example.com", getAccessToken := some (Except.error { tag := "AuthError" }) }

/-- Concrete service config whose access-token supplier succeeds. -/
def cfgAuthOk : ServiceConfig :=
  { url := "https://api.example.com", getAccessToken := some (Except.ok (some "tok")) }

/-- Witness for C2 at concrete configs and a concrete request. -/
theorem authFailureSilentDegrade_witness :
    serviceTransform cfgAuthFail reqRelative =
      prependBaseUrl "https://api.example.com" reqRelative ∧
    getHeader (serviceTransform cfgAuthFail reqRelative).headers "authorization" = none ∧
    getHeader (serviceTransform cfgAuthOk reqRelative).headers "authorization" =
      some "Bearer tok" := by
  have h1 := (authFailureSilentDegrade cfgAuthFail reqRelative).1 { tag := "AuthError" } rfl
  have h2 := (authFailureSilentDegrade cfgAuthOk reqRelative).2 "tok" rfl (by decide)
  exact ⟨h1.1, h1.2.trans rfl, h2.trans (by decide)⟩

/-- C3: for every request passing through either configured layer, a URL
starting with `/` is rewritten to the configured base URL concatenated with
the request URL, and any other URL is dispatched unchanged. -/
theorem baseUrlPrefixing (cfg : ServiceConfig) (ccfg : ClientConfig) (req : HttpRequest) :
    (strStartsWith req.url "/" = true →
      (serviceTransform cfg req).url = cfg.url ++ req.url ∧
      (clientTransform ccfg req).url = ccfg.url ++ req.url) ∧
    (strStartsWith req.url "/" = false →
      (serviceTransform cfg req).url = req.url ∧
      (clientTransform ccfg req).url = req.url) := by
  constructor
  · intro h
    constructor
    · rw [serviceTransform, serviceAuthStage_url]
      simp [prependBaseUrl, h]
    · rw [clientTransform, clientAuthStage_url]
      simp [prependBaseUrl, h]
  · intro h
    constructor
    · rw [serviceTransform, serviceAuthStage_url]
      simp [prependBaseUrl, h]
    · rw [clientTransform, clientAuthStage_url]
      simp [prependBaseUrl, h]

/-- Concrete service config with no access-token supplier, used by witnesses. -/
def cfgPlain : ServiceConfig := { url := "https://api.example.com", getAccessToken := none }

/-- Concrete client config with no access token, used by witnesses. -/
def ccfgPlain : ClientConfig := { url := "https://api.example.com", accessToken := none }

/-- Witness for C3: `/todos/1` is rewritten against the base URL in both
layers and an absolute URL passes through unchanged. -/
theorem baseUrlPrefixing_witness :
    (serviceTransform cfgPlain reqRelative).url = "https://api.example.com/todos/1" ∧
    (clientTransform ccfgPlain reqRelative).url = "https://api.example.com/todos/1" ∧
    (serviceTransform cfgPlain reqAbsolute).url = "https://other.example.com/x" := by
  have h1 := (baseUrlPrefixing cfgPlain ccfgPlain reqRelative).1 (by decide)
  have h2 := (baseUrlPrefixing cfgPlain ccfgPlain reqAbsolute).2 (by decide)
  exact ⟨h1.1.trans (by decide), h1.2.trans (by decide), h2.1⟩

/-- C10: when the access token is absent or falsy — the client config's
`accessToken` is `undefined` or the empty string, the service config's
supplier is absent, or the supplier succeeds with `undefined` — the
bearer-token stage returns the request unchanged, attaching no Authorization
header. -/
theorem falsyTokenNoAuthHeader (base : String) (req : HttpRequest) :
    clientAuthStage { url := base, accessToken := none } req = req ∧
    clientAuthStage { url := base, accessToken := some "" } req = req ∧
    serviceAuthStage { url := base, getAccessToken := none } req = req ∧
    serviceAuthStage { url := base, getAccessToken := some (Except.ok none) } req = req := by
  refine ⟨rfl, ?_, rfl, rfl⟩
  simp [clientAuthStage]

/-- Embeds `url.ts`'s internal URL union `Url = Value | Fn`:
a static URL value or a dynamic URL function of the parameters. -/
inductive Url (P : Type) where
  | value (url : String) : Url P
  | fn (f : P → String) : Url P

/-- Embeds `url.ts`'s `MakerUrl = MakerUrlValue | MakerUrlFn`: the maker is
either a plain string or a one-argument function returning a string. -/
inductive MakerUrl (P : Type) where
  | str (s : String) : MakerUrl P
  | fn (f : P → String) : MakerUrl P

/-- Discriminator for the static maker variant (`typeof url === "string"`). -/
def MakerUrl.isStr {P : Type} : MakerUrl P → Bool
  | .str _ => true
  | .fn _ => false

/-- Discriminator for the `Value` variant of the internal URL union. -/
def Url.isValue {P : Type} : Url P → Bool
  | .value _ => true
  | .fn _ => false

/-- Discriminator for the `Fn` variant of the internal URL union. -/
def Url.isFn {P : Type} : Url P → Bool
  | .value _ => false
  | .fn _ => true

/-- Embeds `url.ts`'s `fromMakerUrl`:
`typeof url === "string" ? value(url) : fn(url)`. -/
def fromMakerUrl {P : Type} : MakerUrl P → Url P
  | .str s => Url.value s
  | .fn f => Url.fn f

/-- An Effect schema, modelled by what the claims observe of it: a decidable
validation predicate on JSON values. -/
structure MakerSchema where
  validate : Json → Bool

/-- A raw HTTP response: status, headers, and body (already read as JSON). -/
structure HttpResponse where
  status : Nat
  headers : HeaderMap
  body : Json

/-- Embeds `output.ts`'s internal output union `Output = Schema | Fn`: a
schema parser or a custom response-processing function, which may fail. -/
inductive Output where
  | schema (s : MakerSchema) : Output
  | fn (f : HttpResponse → Except Json Json) : Output

/-- Embeds `output.ts`'s `MakerOutput = MakerSchema | MakerOutputFn`. -/
inductive MakerOutput where
  | schema (s : MakerSchema) : MakerOutput
  | fn (f : HttpResponse → Except Json Json) : MakerOutput

/-- Discriminator for the schema maker variant (`S.isSchema(output)`). -/
def MakerOutput.isSchema : MakerOutput → Bool
  | .schema _ => true
  | .fn _ => false

/-- Discriminator for the `Schema` variant of the internal output union. -/
def Output.isSchema : Output → Bool
  | .schema _ => true
  | .fn _ => false

/-- Discriminator for the `Fn` variant of the internal output union. -/
def Output.isFn : Output → Bool
  | .schema _ => false
  | .fn _ => true

/-- Embeds `output.ts`'s `fromMakerOutput`:
`S.isSchema(output) ? schema(output) : fn(output)`. -/
def fromMakerOutput : MakerOutput → Output
  | .schema s => Output.schema s
  | .fn f => Output.fn f

/-- Embeds the headers maker (`headers.ts` is absent from `src/`; the shape —
a static header map or a one-argument function producing one — is fixed by
the specification's §3 and by `client.ts`'s and the README's uses). -/
inductive MakerHeaders (P : Type) where
  | map (hs : HeaderMap) : MakerHeaders P
  | fn (f : P → HeaderMap) : MakerHeaders P

/-- Embeds the error maker (`error.ts` is absent from `src/`): a schema to
validate the failure response's body into a typed domain error, or a custom
function producing the domain error value from the raw response. -/
inductive MakerError where
  | schema (s : MakerSchema) : MakerError
  | fn (f : HttpResponse → Json) : MakerError

/-- Embeds the body maker (`input.ts` is absent from `src/`): a typed schema
validating the call-time body parameter, a fixed pre-validated value
(`Input.value(schema, v)`), or a custom function producing a transport-ready
body representation, bypassing validation. -/
inductive InputSpec where
  | schema (s : MakerSchema) : InputSpec
  | value (s : MakerSchema) (v : Json) : InputSpec
  | fn (f : Json → BodyRep) : InputSpec

/-- Embeds `Make.GetMakerSpec`: the declarative spec a caller hands to
`Client.get` — url, optional headers, optional response parser, optional
error parser. -/
structure GetMakerSpec (P : Type) where
  url : MakerUrl P
  headers : Option (MakerHeaders P) := none
  response : Option MakerOutput := none
  error : Option MakerError := none

/-- Embeds `client.ts`'s `Client` class: a reusable client carrying optional
default headers and an optional default error parser. -/
structure Client (P : Type) where
  headers : Option (MakerHeaders P) := none
  error : Option MakerError := none

/-- Embeds the object spread `{ headers: this.headers, error: this.error,
...spec }` in `Client.get` (client.ts line 70): a field the route spec
supplies overrides the client default wholesale; a client default survives
only for a field the spec omits. -/
def Client.get {P : Type} (c : Client P) (spec : GetMakerSpec P) : GetMakerSpec P :=
  { url := spec.url
    headers := match spec.headers with
      | some h => some h
      | none => c.headers
    response := spec.response
    error := match spec.error with
      | some e => some e
      | none => c.error }

/-- Modelled from the spec: the URL Resolver of the absent `make.ts` (§4.1).
The static variant returns the literal string verbatim, ignoring the
parameters; the dynamic variant applies the stored function to the supplied
parameters. -/
def resolveUrl {P : Type} : Url P → P → String
  | .value s, _ => s
  | .fn f, p => f p

/-- Modelled from the spec: the Headers Resolver of the absent `make.ts`
(§4.2), restricted to what the claims need.  A static map is returned as-is;
a dynamic function is applied to the parameters; an absent spec yields no
headers.  Client defaults were already folded into the spec at construction
time by `Client.get`. -/
def resolveHeaders {P : Type} (h : Option (MakerHeaders P)) (p : P) : HeaderMap :=
  match h with
  | none => []
  | some (.map hs) => hs
  | some (.fn f) => f p

/-- The per-key right-biased header merge exactly as the specification words
it (spec-side definition, for comparison with the code's behaviour): every
key of the defaults not overridden by the spec survives, and a key present
in both takes the spec's value. -/
def mergeRightBiased (defaults spec : HeaderMap) : HeaderMap :=
  defaults.filter (fun kv => (List.lookup kv.1 spec).isNone) ++ spec

/-- Concrete client whose default headers are `{A:1, B:2}`. -/
def c1Client : Client Unit :=
  { headers := some (MakerHeaders.map [("A", "1"), ("B", "2")]) }

/-- Concrete route spec supplying its own headers `{B:3}`. -/
def c1Spec : GetMakerSpec Unit :=
  { url := MakerUrl.str "/x", headers := some (MakerHeaders.map [("B", "3")]) }

/-- C1 counterexample: with client default headers `{A:1,B:2}` and a route
spec supplying headers `{B:3}`, the resolved header map is `{B:3}` — the
key `A` present only in the defaults does not survive, so the result is not
the per-key right-biased merge `{A:1,B:3}` the claim states. -/
theorem headerMergeCounterexample :
    resolveHeaders (c1Client.get c1Spec).headers () = [("B", "3")] ∧
    List.lookup "A" (resolveHeaders (c1Client.get c1Spec).headers ()) = none ∧
    resolveHeaders (c1Client.get c1Spec).headers () ≠
      mergeRightBiased [("A", "1"), ("B", "2")] [("B", "3")] := by
  refine ⟨rfl, rfl, ?_⟩
  decide

/-- C1 (amended): the merge of client default headers into a route spec is a
field-level override, not a per-key merge — when the spec supplies its own
headers they replace the defaults wholesale (so with defaults `{A:1,B:2}`
and spec `{B:3}` the resolved map is `{B:3}`), and the defaults are resolved
only when the spec supplies no headers. -/
theorem headerOverrideNotMerge {P : Type} (c : Client P) (s : GetMakerSpec P)
    (hm : HeaderMap) (p : P) :
    (s.headers = some (MakerHeaders.map hm) →
      resolveHeaders (c.get s).headers p = hm) ∧
    (s.headers = none →
      resolveHeaders (c.get s).headers p = resolveHeaders c.headers p) := by
  constructor
  · intro h
    unfold Client.get resolveHeaders
    rw [h]
  · intro h
    unfold Client.get resolveHeaders
    rw [h]

/-- Concrete route spec supplying no headers of its own. -/
def c1SpecNoHeaders : GetMakerSpec Unit := { url := MakerUrl.str "/y" }

/-- Witness for the amended C1 at the concrete client and specs. -/
theorem headerOverrideNotMerge_witness :
    resolveHeaders (c1Client.get c1Spec).headers () = [("B", "3")] ∧
    resolveHeaders (c1Client.get c1SpecNoHeaders).headers () =
      resolveHeaders c1Client.headers () := by
  have h1 := (headerOverrideNotMerge c1Client c1Spec [("B", "3")] ()).1 rfl
  have h2 := (headerOverrideNotMerge c1Client c1SpecNoHeaders [] ()).2 rfl
  exact ⟨h1, h2⟩

/-- C8: for every route whose URL spec is a static string, the resolved URL
equals that literal string exactly, whatever parameters are passed; for
every dynamic URL spec, the resolved URL equals the stored function applied
to the supplied parameters. -/
theorem urlResolution (P : Type) (s : String) (f : P → String) (p : P) :
    resolveUrl (fromMakerUrl (MakerUrl.str s)) p = s ∧
    resolveUrl (fromMakerUrl (MakerUrl.fn f)) p = f p :=
  ⟨rfl, rfl⟩

/-- Modelled from the spec: the internal headers representation of the absent
`headers.ts`, following the `Value`/`Fn` tagged-class pattern of `url.ts`
(§3, §9): a static header map or a one-argument function producing one. -/
inductive HeadersRep (P : Type) where
  | value (hs : HeaderMap) : HeadersRep P
  | fn (f : P → HeaderMap) : HeadersRep P

/-- Discriminator for the static map maker variant. -/
def MakerHeaders.isMap {P : Type} : MakerHeaders P → Bool
  | .map _ => true
  | .fn _ => false

/-- Discriminator for the `Value` variant of the internal headers union. -/
def HeadersRep.isValue {P : Type} : HeadersRep P → Bool
  | .value _ => true
  | .fn _ => false

/-- Discriminator for the `Fn` variant of the internal headers union. -/
def HeadersRep.isFn {P : Type} : HeadersRep P → Bool
  | .value _ => false
  | .fn _ => true

/-- Modelled from the spec: the construction-time conversion of a headers
maker (absent `headers.ts`), discriminating the static map from the
function as `fromMakerUrl` does for URLs. -/
def fromMakerHeaders {P : Type} : MakerHeaders P → HeadersRep P
  | .map hs => HeadersRep.value hs
  | .fn f => HeadersRep.fn f

/-- Modelled from the spec: the internal error representation of the absent
`error.ts`, following the `Schema`/`Fn` tagged-class pattern of
`output.ts`: a schema or a custom error-producing function. -/
inductive ErrorRep where
  | schema (s : MakerSchema) : ErrorRep
  | fn (f : HttpResponse → Json) : ErrorRep

/-- Discriminator for the schema maker variant of the error maker. -/
def MakerError.isSchema : MakerError → Bool
  | .schema _ => true
  | .fn _ => false

/-- Discriminator for the `Schema` variant of the internal error union. -/
def ErrorRep.isSchema : ErrorRep → Bool
  | .schema _ => true
  | .fn _ => false

/-- Discriminator for the `Fn` variant of the internal error union. -/
def ErrorRep.isFn : ErrorRep → Bool
  | .schema _ => false
  | .fn _ => true

/-- Modelled from the spec: the construction-time conversion of an error
maker (absent `error.ts`), discriminating the schema from the function as
`fromMakerOutput` does for outputs. -/
def fromMakerErr : MakerError → ErrorRep
  | .schema s => ErrorRep.schema s
  | .fn f => ErrorRep.fn f

/-- Embeds the body maker accepted for the `body` field (`input.ts` is absent
from `src/`; the three accepted shapes — a typed schema, a fixed
pre-validated value built by `Input.value(schema, v)`, and a custom function
— are fixed by spec §3/§4.3 and the README). -/
inductive MakerInput where
  | schema (s : MakerSchema) : MakerInput
  | value (s : MakerSchema) (v : Json) : MakerInput
  | fn (f : Json → BodyRep) : MakerInput

/-- Discriminator for the schema variant of the body maker. -/
def MakerInput.isSchema : MakerInput → Bool
  | .schema _ => true
  | _ => false

/-- Discriminator for the fixed-value variant of the body maker. -/
def MakerInput.isValue : MakerInput → Bool
  | .value _ _ => true
  | _ => false

/-- Discriminator for the function variant of the body maker. -/
def MakerInput.isFn : MakerInput → Bool
  | .fn _ => true
  | _ => false

/-- Discriminator for the schema variant of the internal body union. -/
def InputSpec.isSchema : InputSpec → Bool
  | .schema _ => true
  | _ => false

/-- Discriminator for the fixed-value variant of the internal body union. -/
def InputSpec.isValue : InputSpec → Bool
  | .value _ _ => true
  | _ => false

/-- Discriminator for the function variant of the internal body union. -/
def InputSpec.isFn : InputSpec → Bool
  | .fn _ => true
  | _ => false

/-- Modelled from the spec: the construction-time conversion of a body maker
(absent `input.ts`) into the internal, three-variant body representation of
§3 — typed schema, fixed literal value, or custom function. -/
def fromMakerInput : MakerInput → InputSpec
  | .schema s => InputSpec.schema s
  | .value s v => InputSpec.value s v
  | .fn f => InputSpec.fn f

/-- A schema accepting every JSON value, used by the C9 counterexample. -/
def anySchema : MakerSchema := { validate := fun _ => true }

/-- C9 counterexample: the body maker `Input.value(schema, v)` converts at
construction time to a third tagged variant — the fixed-value variant —
which is neither the static-schema variant nor the function variant, so the
constructed body field is not one of exactly two tagged variants as the
claim states. -/
theorem bodyThreeVariantCounterexample :
    (fromMakerInput (MakerInput.value anySchema
      (Json.obj [("title", Json.str "X")]))).isSchema = false ∧
    (fromMakerInput (MakerInput.value anySchema
      (Json.obj [("title", Json.str "X")]))).isFn = false ∧
    (fromMakerInput (MakerInput.value anySchema
      (Json.obj [("title", Json.str "X")]))).isValue = true :=
  ⟨rfl, rfl, rfl⟩

/-- C9 (amended): for the url, headers, response, and error fields the
construction-time conversion yields exactly one of two tagged variants —
the static-value variant if and only if the input is a static value (a
string for URLs, a map for headers, a schema for responses and errors),
otherwise the function variant, and never both.  The body field is a
three-variant union (typed schema, fixed literal value, custom function):
its conversion yields exactly the variant matching the maker's shape, at
least one and never more than one variant at once. -/
theorem makerVariantDiscrimination (P : Type) (m : MakerUrl P) (h : MakerHeaders P)
    (i : MakerInput) (o : MakerOutput) (e : MakerError) :
    (fromMakerUrl m).isValue = m.isStr ∧
    (fromMakerUrl m).isFn = !m.isStr ∧
    (fromMakerHeaders h).isValue = h.isMap ∧
    (fromMakerHeaders h).isFn = !h.isMap ∧
    (fromMakerOutput o).isSchema = o.isSchema ∧
    (fromMakerOutput o).isFn = !o.isSchema ∧
    (fromMakerErr e).isSchema = e.isSchema ∧
    (fromMakerErr e).isFn = !e.isSchema ∧
    (fromMakerInput i).isSchema = i.isSchema ∧
    (fromMakerInput i).isValue = i.isValue ∧
    (fromMakerInput i).isFn = i.isFn ∧
    ((fromMakerInput i).isSchema || (fromMakerInput i).isValue ||
      (fromMakerInput i).isFn) = true ∧
    (∀ u : Url P, u.isValue = !u.isFn) ∧
    (∀ hr : HeadersRep P, hr.isValue = !hr.isFn) ∧
    (∀ w : Output, w.isSchema = !w.isFn) ∧
    (∀ er : ErrorRep, er.isSchema = !er.isFn) ∧
    (∀ b : InputSpec,
      ¬(b.isSchema = true ∧ b.isValue = true) ∧
      ¬(b.isSchema = true ∧ b.isFn = true) ∧
      ¬(b.isValue = true ∧ b.isFn = true)) := by
  refine ⟨?_, ?_, ?_, ?_, ?_, ?_, ?_, ?_, ?_, ?_, ?_, ?_, ?_, ?_, ?_, ?_, ?_⟩
  · cases m <;> rfl
  · cases m <;> rfl
  · cases h <;> rfl
  · cases h <;> rfl
  · cases o <;> rfl
  · cases o <;> rfl
  · cases e <;> rfl
  · cases e <;> rfl
  · cases i <;> rfl
  · cases i <;> rfl
  · cases i <;> rfl
  · cases i <;> rfl
  · intro u
    cases u <;> rfl
  · intro hr
    cases hr <;> rfl
  · intro w
    cases w <;> rfl
  · intro er
    cases er <;> rfl
  · intro b
    cases b <;> exact ⟨fun hc => by simp [InputSpec.isSchema, InputSpec.isValue, InputSpec.isFn] at hc,
      fun hc => by simp [InputSpec.isSchema, InputSpec.isValue, InputSpec.isFn] at hc,
      fun hc => by simp [InputSpec.isSchema, InputSpec.isValue, InputSpec.isFn] at hc⟩

/-- Modelled from the spec: the transport's success classification (§4.6 step
5) — a response is a success exactly when its status is 2xx. -/
def isSuccessStatus (status : Nat) : Bool :=
  200 ≤ status && status < 300

/-- Whether the HTTP method may carry a body: GET and DELETE calls never
invoke the body encoder (§4.3). -/
def methodAllowsBody : Method → Bool
  | .get => false
  | .delete => false
  | .post => true
  | .put => true

/-- Modelled from the spec: the Body Encoder of the absent `make.ts` (§4.3).
A typed-schema body validates the call-time parameter and serializes it as
JSON, failing with the offending value when validation fails; a literal
value is serialized on every call, ignoring the parameter; a custom function
produces the body representation itself, bypassing validation.  GET and
DELETE never invoke the encoder. -/
def encodeBody (m : Method) (spec : Option InputSpec) (bodyParam : Json) :
    Except Json (Option BodyRep) :=
  if methodAllowsBody m then
    match spec with
    | none => Except.ok none
    | some (.schema s) =>
      if s.validate bodyParam then Except.ok (some (BodyRep.jsonBody bodyParam))
      else Except.error bodyParam
    | some (.value _ v) => Except.ok (some (BodyRep.jsonBody v))
    | some (.fn f) => Except.ok (some (f bodyParam))
  else Except.ok none

/-- Modelled from the spec: the Output Decoder of the absent `make.ts` (§4.4).
The schema variant validates the response body, failing with the body on a
validation failure; the function variant is applied to the raw response and
may itself fail. -/
def decodeOutput : Output → HttpResponse → Except Json Json
  | .schema s, res =>
    if s.validate res.body then Except.ok res.body else Except.error res.body
  | .fn f, res => f res

/-- Modelled from the spec: the Error Decoder of the absent `make.ts` (§4.5).
The schema variant produces the response body as the typed domain error when
it validates, and nothing otherwise; the function variant produces the
domain error value from the raw response. -/
def decodeErr : MakerError → HttpResponse → Option Json
  | .schema s, res => if s.validate res.body then some res.body else none
  | .fn f, res => some (f res)

/-- The failure channel of a route call (§7): body validation failure before
dispatch, the generic transport HTTP error, a decoded typed domain error,
or a response-decoding failure after a successful call. -/
inductive ApiError where
  | encodeError (detail : Json) : ApiError
  | httpError (res : HttpResponse) : ApiError
  | domainError (value : Json) : ApiError
  | decodeError (detail : Json) : ApiError

/-- The success channel of a route call: the raw response when no output spec
is configured, or the decoded value. -/
inductive Outcome where
  | raw (res : HttpResponse) : Outcome
  | decoded (value : Json) : Outcome

/-- The observable result of one route call: the typed outcome, and whether
the transport was invoked. -/
structure CallResult where
  outcome : Except ApiError Outcome
  dispatched : Bool

/-- Modelled from the spec: the internal route representation produced by the
absent `make.ts`'s `toRoute` — method plus the converted url, headers, body,
response, and error fields (§3). -/
structure Route (P : Type) where
  method : Method
  url : Url P
  headers : Option (MakerHeaders P) := none
  body : Option InputSpec := none
  response : Option Output := none
  error : Option MakerError := none

/-- Modelled from the spec: response handling of the Route Assembler (§4.6
steps 5-7).  A 2xx response yields the raw response when no output spec is
configured, otherwise the output decoder's value, with a decoding failure
surfaced as a decode error.  A non-2xx response yields the decoded domain
error when an error spec is configured and matches, and the generic
transport HTTP error otherwise (the spec leaves a non-matching error spec
unspecified; the model falls back to the generic error there). -/
def handleResponse {P : Type} (route : Route P) (res : HttpResponse) :
    Except ApiError Outcome :=
  if isSuccessStatus res.status then
    match route.response with
    | none => Except.ok (Outcome.raw res)
    | some o =>
      match decodeOutput o res with
      | Except.ok v => Except.ok (Outcome.decoded v)
      | Except.error d => Except.error (ApiError.decodeError d)
  else
    match route.error with
    | none => Except.error (ApiError.httpError res)
    | some e =>
      match decodeErr e res with
      | some v => Except.error (ApiError.domainError v)
      | none => Except.error (ApiError.httpError res)

/-- Modelled from the spec: the Route Assembler of the absent `make.ts`
(§4.6).  Per call: resolve the URL and headers, encode the body — a body
validation failure surfaces as an encode error with no request dispatched —
then dispatch exactly one request through the transport and classify and
decode its response. -/
def makeCall {P : Type} (route : Route P) (transport : HttpRequest → HttpResponse)
    (p : P) (bodyParam : Json) : CallResult :=
  match encodeBody route.method route.body bodyParam with
  | Except.error d =>
    { outcome := Except.error (ApiError.encodeError d), dispatched := false }
  | Except.ok b =>
    { outcome := handleResponse route
        (transport
          { method := route.method
            url := resolveUrl route.url p
            headers := resolveHeaders route.headers p
            body := b })
      dispatched := true }

/-- C4: for every route whose body is declared with a typed schema, a call
whose body parameter fails validation returns an `EncodeError` carrying the
offending value on the failure channel, dispatches nothing, and its result
does not depend on the transport at all. -/
theorem bodyValidationFailureNoDispatch (P : Type) (route : Route P)
    (s : MakerSchema) (t₁ t₂ : HttpRequest → HttpResponse) (p : P) (bodyParam : Json)
    (hb : route.body = some (InputSpec.schema s))
    (hm : methodAllowsBody route.method = true)
    (hv : s.validate bodyParam = false) :
    (makeCall route t₁ p bodyParam).outcome =
      Except.error (ApiError.encodeError bodyParam) ∧
    (makeCall route t₁ p bodyParam).dispatched = false ∧
    makeCall route t₁ p bodyParam = makeCall route t₂ p bodyParam := by
  have he : encodeBody route.method route.body bodyParam = Except.error bodyParam := by
    simp [encodeBody, hm, hb, hv]
  unfold makeCall
  rw [he]
  exact ⟨rfl, rfl, rfl⟩

/-- A schema accepting exactly JSON objects whose first field is a string
titled `title`, used by witnesses. -/
def titleSchema : MakerSchema :=
  { validate := fun j =>
      match j with
      | Json.obj (("title", Json.str _) :: _) => true
      | _ => false }

/-- A 200 response with a `null` body, used by witnesses. -/
def okResponse : HttpResponse := { status := 200, headers := [], body := Json.null }

/-- A 404 response whose body is `{"message": "no"}`, used by witnesses. -/
def errResponse : HttpResponse :=
  { status := 404, headers := [], body := Json.obj [("message", Json.str "no")] }

/-- Concrete POST route with a typed-schema body, used by the C4 witness. -/
def c4Route : Route Unit :=
  { method := Method.post, url := Url.value "/todos"
    body := some (InputSpec.schema titleSchema) }

/-- Witness for C4: a body parameter failing the schema yields the encode
error and no dispatch. -/
theorem bodyValidationFailureNoDispatch_witness :
    (makeCall c4Route (fun _ => okResponse) () (Json.num 0)).outcome =
      Except.error (ApiError.encodeError (Json.num 0)) ∧
    (makeCall c4Route (fun _ => okResponse) () (Json.num 0)).dispatched = false := by
  have h := bodyValidationFailureNoDispatch Unit c4Route titleSchema
    (fun _ => okResponse) (fun _ => errResponse) () (Json.num 0) rfl rfl rfl
  exact ⟨h.1, h.2.1⟩

/-- C5: for every route with a response schema, a 2xx response whose body
fails validation makes the call's outcome a `DecodeError` on the failure
channel — never a success value — and that error is distinct from the
generic transport HTTP error. -/
theorem decodeErrorOnInvalid2xx (P : Type) (route : Route P) (s : MakerSchema)
    (res : HttpResponse) (p : P) (bodyParam : Json) (b : Option BodyRep)
    (henc : encodeBody route.method route.body bodyParam = Except.ok b)
    (hout : route.response = some (Output.schema s))
    (h2xx : isSuccessStatus res.status = true)
    (hval : s.validate res.body = false) :
    (makeCall route (fun _ => res) p bodyParam).outcome =
      Except.error (ApiError.decodeError res.body) ∧
    (∀ r : HttpResponse, ApiError.decodeError res.body ≠ ApiError.httpError r) := by
  constructor
  · unfold makeCall
    rw [henc]
    simp [handleResponse, h2xx, hout, decodeOutput, hval]
  · intro r h
    exact ApiError.noConfusion h

/-- Concrete GET route with a response schema, used by the C5 witness. -/
def c5Route : Route Unit :=
  { method := Method.get, url := Url.value "/todos/1"
    response := some (Output.schema titleSchema) }

/-- A 200 response whose body fails the title schema, used by the C5 witness. -/
def badBodyResponse : HttpResponse := { status := 200, headers := [], body := Json.num 1 }

/-- Witness for C5 at a concrete route and 2xx response with an invalid body. -/
theorem decodeErrorOnInvalid2xx_witness :
    (makeCall c5Route (fun _ => badBodyResponse) () Json.null).outcome =
      Except.error (ApiError.decodeError (Json.num 1)) := by
  have h := decodeErrorOnInvalid2xx Unit c5Route titleSchema badBodyResponse ()
    Json.null none rfl rfl rfl rfl
  exact h.1

/-- C6: on a non-2xx response, a route with a configured error spec that
matches fails with the decoded typed domain error — distinct from the
generic transport error — while a route without an error spec fails with
the transport-level generic HTTP error carrying the response unchanged. -/
theorem errorSpecDomainError (P : Type) (route : Route P)
    (res : HttpResponse) (p : P) (bodyParam : Json) (b : Option BodyRep)
    (henc : encodeBody route.method route.body bodyParam = Except.ok b)
    (hfail : isSuccessStatus res.status = false) :
    (∀ (e : MakerError) (v : Json), route.error = some e → decodeErr e res = some v →
      (makeCall route (fun _ => res) p bodyParam).outcome =
        Except.error (ApiError.domainError v) ∧
      (∀ r : HttpResponse, ApiError.domainError v ≠ ApiError.httpError r)) ∧
    (route.error = none →
      (makeCall route (fun _ => res) p bodyParam).outcome =
        Except.error (ApiError.httpError res)) := by
  constructor
  · intro e v he hv
    constructor
    · unfold makeCall
      rw [henc]
      simp [handleResponse, hfail, he, hv]
    · intro r h
      exact ApiError.noConfusion h
  · intro he
    unfold makeCall
    rw [henc]
    simp [handleResponse, hfail, he]

/-- Concrete GET route with a schema error spec, used by the C6 witness. -/
def c6Route : Route Unit :=
  { method := Method.get, url := Url.value "/todos/9"
    error := some (MakerError.schema { validate := fun j =>
      match j with
      | Json.obj (("message", Json.str _) :: _) => true
      | _ => false }) }

/-- Concrete GET route with no error spec, used by the C6 witness. -/
def c6RouteNoErr : Route Unit := { method := Method.get, url := Url.value "/todos/9" }

/-- Witness for C6: a matching error schema on a 404 yields the decoded
domain error; without an error spec the same 404 yields the generic error. -/
theorem errorSpecDomainError_witness :
    (makeCall c6Route (fun _ => errResponse) () Json.null).outcome =
      Except.error (ApiError.domainError (Json.obj [("message", Json.str "no")])) ∧
    (makeCall c6RouteNoErr (fun _ => errResponse) () Json.null).outcome =
      Except.error (ApiError.httpError errResponse) := by
  have h1 := errorSpecDomainError Unit c6Route errResponse () Json.null none rfl rfl
  have h2 := errorSpecDomainError Unit c6RouteNoErr errResponse () Json.null none rfl rfl
  exact ⟨(h1.1 _ (Json.obj [("message", Json.str "no")]) rfl rfl).1, h2.2 rfl⟩

/-- C7: for every route with no response spec, a successful (2xx) call's
success value is the raw HTTP response object itself, not a decoded value. -/
theorem rawResponseWhenNoOutputSpec (P : Type) (route : Route P)
    (res : HttpResponse) (p : P) (bodyParam : Json) (b : Option BodyRep)
    (henc : encodeBody route.method route.body bodyParam = Except.ok b)
    (hnone : route.response = none)
    (h2xx : isSuccessStatus res.status = true) :
    (makeCall route (fun _ => res) p bodyParam).outcome =
      Except.ok (Outcome.raw res) := by
  unfold makeCall
  rw [henc]
  simp [handleResponse, h2xx, hnone]

/-- Concrete GET route with no response spec, used by the C7 witness. -/
def c7Route : Route Unit := { method := Method.get, url := Url.value "/todos/1" }

/-- Witness for C7: with no response spec a 200 response is returned raw. -/
theorem rawResponseWhenNoOutputSpec_witness :
    (makeCall c7Route (fun _ => okResponse) () Json.null).outcome =
      Except.ok (Outcome.raw okResponse) := by
  exact rawResponseWhenNoOutputSpec Unit c7Route okResponse () Json.null none rfl rfl rfl

end EffectApiClient
